import Mathlib

/-!
Verification development for the AutoCrew orchestration script
(`autocrew.py`): a shallow embedding of the candidate-generation and
ranking pipeline, with theorems about goal truncation, the count-argument
parser, the generation/ranking control flow of `main`, and the
spec-described ranking-response parser.

The `AutoCrew` class itself (`generate_scripts`, `get_existing_scripts`,
`rank_crews`, `save_ranking_output`) lives in `core.py`, which is not part
of the sources at hand; those operations are modelled as an abstract
environment of fallible calls, and where a property depends on their
behaviour the model follows the specification text (marked
`Modelled from the spec:`).
-/

namespace Autocrew

/-! ## Goal truncation (`truncate_overall_goal`) -/

/-- `truncate_overall_goal(overall_goal, max_length)` returns
`overall_goal[:max_length]`: the Python slice keeping the first
`max_length` characters. -/
def truncate_overall_goal (overall_goal : String) (max_length : Nat) : String :=
  ⟨overall_goal.data.take max_length⟩

/-! ## The count-argument parser (`positive_int`) -/

/-- Value of a list of decimal digit characters, most significant first. -/
def digitsToNat (l : List Char) : Nat :=
  l.foldl (fun n c => 10 * n + (c.toNat - 48)) 0

/-- Surrounding whitespace characters stripped from a character list
(Python's `str.strip()` as applied inside `int`). -/
def stripWhitespace (l : List Char) : List Char :=
  ((l.dropWhile Char.isWhitespace).reverse.dropWhile Char.isWhitespace).reverse

/-- Python's `int(s)` on a decimal string: surrounding whitespace is
stripped, an optional single leading sign is allowed, and the remainder
must be a nonempty run of digits; otherwise `int` raises `ValueError`
(modelled as `none`). -/
def pyParseInt (s : String) : Option Int :=
  match stripWhitespace s.data with
  | [] => none
  | c :: rest =>
    let digits : List Char := if c = '-' ∨ c = '+' then rest else c :: rest
    let sign : Int := if c = '-' then -1 else 1
    if digits ≠ [] ∧ digits.all Char.isDigit then
      some (sign * (digitsToNat digits : Int))
    else
      none

/-- Outcome of `positive_int`. `argTypeError` is the
`argparse.ArgumentTypeError` raised on a parseable but non-positive
value (it is not a `ValueError`, so the `except ValueError` branch does
not catch it); `noResult` models the interactive `while True` loop never
receiving a parseable line. -/
inductive ParseOutcome where
  | ok (n : Int)
  | argTypeError
  | noResult
deriving DecidableEq, Repr

/-- `positive_int(value)`: try `int(value)`; if that parses and the value
is `<= 0`, raise `ArgumentTypeError`; if it parses positive, return it.
On `ValueError`, prompt the user and loop, returning `int(input())` for
the first line that parses — with no positivity check on that path.
`interactive_inputs` is the stream of lines typed at the prompt. -/
def positive_int (value : String) (interactive_inputs : List String) :
    ParseOutcome :=
  match pyParseInt value with
  | some i => if i ≤ 0 then .argTypeError else .ok i
  | none =>
    match interactive_inputs.findSome? pyParseInt with
    | some n => .ok n
    | none => .noResult

/-- `num_scripts_to_generate = 1 if not args.m else args.m`: `args.m` is
`None` when `-m` is absent, and Python's `not` also treats `0` as falsy. -/
def num_scripts_to_generate (m : Option Int) : Int :=
  match m with
  | none => 1
  | some v => if v = 0 then 1 else v

/-! ## Command-line arguments

Post-parse shape of `argparse`. `-c` appends (absent = empty list), `-m`
carries the value `positive_int` returned (absent = `none`), and the
positional `overall_goal` is optional (absent and empty are both falsy in
Python, so both are modelled as `""`). -/

structure Args where
  a : Bool
  c : List String
  d : Bool
  h : Bool
  m : Option Int
  r : Bool
  u : Bool
  v : Bool
  w : Bool
  overall_goal : String
deriving DecidableEq, Repr

/-! ## The external `AutoCrew` calls

`generate_scripts`, `get_existing_scripts`, `rank_crews` and
`save_ranking_output` are methods of the `AutoCrew` class defined in
`core.py`, outside the sources at hand. They are modelled as an abstract
environment: each call either returns a value or raises (`Except.error`).

Modelled from the spec: `generate_scripts` (the Candidate Generator,
§4.3) returns the list of persisted candidate file paths and raises
`GenerationFailed` when zero candidates succeed; `rank_crews` (the
Ranking Evaluator, §4.4) returns the ranked crews together with the
evaluator summary text; `save_ranking_output` (the Report Writer, §4.5)
persists the report. -/

structure Env where
  generate_scripts : String → Int → Except String (List String)
  get_existing_scripts : String → Except String (List String)
  rank_crews : List String → String → Bool → Except String (List String × String)
  save_ranking_output : List String → String → Except String Unit

/-- Observable external calls issued by the orchestration layer, with the
arguments they were issued with. -/
inductive Event where
  | genCall (goal : String) (count : Int)
  | runScript (path : String)
  | discover (goalId : String)
  | rankCall (paths : List String) (goal : String) (verbose : Bool)
  | saveReport (crews : List String) (goalId : String)
deriving DecidableEq, Repr

/-- Result of one orchestration step: either a value, or a `sys.exit`
with the given process exit code (`SystemExit` is not an `Exception`, so
the surrounding `except Exception` handlers let it propagate). -/
inductive StepResult (α : Type) where
  | ok (val : α)
  | exit (code : Nat)
deriving DecidableEq, Repr

/-! ## `generate_and_run_scripts` -/

/-- `generate_and_run_scripts(args, autocrew, truncated_overall_goal)`:
skip generation entirely when any of `-c`, `-h`, `-d`, `-u` is present
(`no_script_generation_params`), returning the initial empty
`csv_file_paths`; otherwise call
`autocrew.generate_scripts(truncated_overall_goal, num_scripts_to_generate)`
and, under `-a`, run each generated script (path with `.csv` replaced by
`.py`). Any exception in the `try` block leads to `sys.exit(1)`. The
returned event list records the external calls issued. -/
def generate_and_run_scripts (env : Env) (args : Args)
    (truncated_overall_goal : String) :
    StepResult (List String) × List Event :=
  let num := num_scripts_to_generate args.m
  let no_script_generation_params :=
    args.c ≠ [] ∨ args.h = true ∨ args.d = true ∨ args.u = true
  if no_script_generation_params then
    (.ok [], [])
  else
    match env.generate_scripts truncated_overall_goal num with
    | .error _ => (.exit 1, [.genCall truncated_overall_goal num])
    | .ok csv_file_paths =>
      let runEvents :=
        if args.a then
          csv_file_paths.map fun path =>
            Event.runScript (path.replace ".csv" ".py")
        else []
      (.ok csv_file_paths, .genCall truncated_overall_goal num :: runEvents)

/-! ## `handle_ranking` -/

/-- `handle_ranking(args, autocrew, truncated_overall_goal, csv_file_paths)`:
under `-r`, fall back to `get_existing_scripts(truncated_overall_goal)`
when no paths were freshly generated; `sys.exit(1)` when the set is still
empty; otherwise call
`rank_crews(csv_file_paths, args.overall_goal, args.v)`, log the returned
summary, and call
`save_ranking_output(ranked_crews, truncated_overall_goal)`. Any
exception in the `try` block leads to `sys.exit(1)`. -/
def handle_ranking (env : Env) (args : Args) (truncated_overall_goal : String)
    (csv_file_paths : List String) : StepResult Unit × List Event :=
  if args.r = false then
    (.ok (), [])
  else
    let discEvents : List Event :=
      if csv_file_paths = [] then [.discover truncated_overall_goal] else []
    match
      (if csv_file_paths = [] then
        env.get_existing_scripts truncated_overall_goal
      else .ok csv_file_paths) with
    | .error _ => (.exit 1, discEvents)
    | .ok paths =>
      if paths = [] then
        (.exit 1, discEvents)
      else
        match env.rank_crews paths args.overall_goal args.v with
        | .error _ =>
          (.exit 1, discEvents ++ [.rankCall paths args.overall_goal args.v])
        | .ok (ranked_crews, _overall_summary) =>
          match env.save_ranking_output ranked_crews truncated_overall_goal with
          | .error _ =>
            (.exit 1, discEvents ++
              [.rankCall paths args.overall_goal args.v,
               .saveReport ranked_crews truncated_overall_goal])
          | .ok _ =>
            (.ok (), discEvents ++
              [.rankCall paths args.overall_goal args.v,
               .saveReport ranked_crews truncated_overall_goal])

/-! ## `main` -/

/-- External dependencies of `main` beyond the `AutoCrew` calls:
`install_dependencies()` (under `-d`), whether the GitHub version check
found a newer release, `upgrade_autocrew` (under `-u`),
`parse_config_parameters` plus `update_config_file_with_params` (under
`-c`), construction of `AutoCrew()`, the interactive goal prompt, and the
`overall_goal_truncation_for_filenames` config value (fallback 40). -/
structure MainEnv where
  env : Env
  install_deps : Except String Unit
  latest_newer : Bool
  upgrade : Except String Unit
  config_update : Except String Unit
  autocrew_init : Except String Unit
  goal_input : String
  max_length : Nat

/-- The goal `main` works with after the interactive prompt: the
positional argument when given (non-falsy), else the prompted line. -/
def effective_goal (menv : MainEnv) (args : Args) : String :=
  if args.overall_goal = "" then menv.goal_input else args.overall_goal

/-- The `main` flow once arguments are present (with no arguments at all
the script only launches the interactive `welcome.py` setup and exits 0,
outside this model): handle `-h`, `-d`, `-u` (each exits), apply `-c`
config updates, construct `AutoCrew()`, prompt for a goal if absent,
truncate it, then run generation and ranking. `sys.exit(n)` propagates
through the `except Exception` handler; any modelled exception reaching
that handler yields exit code 1, and falling off the end yields
`sys.exit(0)`. Returns the process exit code and the issued events. -/
def main_run (menv : MainEnv) (args : Args) : Nat × List Event :=
  if args.h then (0, [])
  else if args.d then
    match menv.install_deps with
    | .ok _ => (0, [])
    | .error _ => (1, [])
  else if args.u then
    if menv.latest_newer then
      match menv.upgrade with
      | .ok _ => (0, [])
      | .error _ => (1, [])
    else (0, [])
  else
    match (if args.c ≠ [] then menv.config_update else .ok ()) with
    | .error _ => (1, [])
    | .ok _ =>
      match menv.autocrew_init with
      | .error _ => (1, [])
      | .ok _ =>
        let goal := effective_goal menv args
        let args' := { args with overall_goal := goal }
        let truncated := truncate_overall_goal goal menv.max_length
        let gen := generate_and_run_scripts menv.env args' truncated
        match gen.1 with
        | .exit code => (code, gen.2)
        | .ok csv_file_paths =>
          let rank := handle_ranking menv.env args' truncated csv_file_paths
          match rank.1 with
          | .exit code => (code, gen.2 ++ rank.2)
          | .ok _ => (0, gen.2 ++ rank.2)

/-! ## Ranking-response parsing (Modelled from the spec) -/

/-- Keep the elements of the second list not yet in `seen`, each at its
first occurrence. -/
def dedupFirstAux : List Nat → List Nat → List Nat
  | _, [] => []
  | seen, a :: l =>
    if a ∈ seen then dedupFirstAux seen l
    else a :: dedupFirstAux (a :: seen) l

/-- First occurrence of each element, in order of first mention;
later duplicates are dropped. -/
def dedupFirst (l : List Nat) : List Nat :=
  dedupFirstAux [] l

/-- Modelled from the spec: the tolerant ranking-response parser of
`AutoCrew.rank_crews` (§4.4; `core.py` is not among the sources at
hand). `candidates` is the candidate set's index list in original
generation order and `mentions` is the sequence of recognizable index
references found in the evaluator response, in order of appearance.
The parser ranks candidates by first mention, appends every candidate
never mentioned at the end in original order, and fails
(`RankingUnparseable`, modelled as `none`) when the response mentions no
candidate index at all. -/
def parse_ranking (candidates : List Nat) (mentions : List Nat) :
    Option (List Nat) :=
  let ranked := dedupFirst (mentions.filter (· ∈ candidates))
  if ranked = [] then none
  else some (ranked ++ candidates.filter (· ∉ ranked))

/-! ## Effect of the external calls on persisted candidate artifacts -/

/-- Modelled from the spec: whether an external call writes, overwrites
or deletes a persisted candidate artifact. Generation persists
candidates (§4.3) and a generated script run may do anything; discovery
(`list`, §4.1) and the single aggregate evaluation call (§4.4) only
read, and `save_ranking_output` writes the ranking report, a sibling
artifact distinct from the candidates (§4.5). -/
def modifiesCandidates : Event → Bool
  | .genCall _ _ => true
  | .runScript _ => true
  | .discover _ => false
  | .rankCall _ _ _ => false
  | .saveReport _ _ => false

/-- Goals of the generation calls among a list of events. -/
def genCallGoals (events : List Event) : List String :=
  events.filterMap fun e =>
    match e with
    | .genCall goal _ => some goal
    | _ => none

/-! ## Lemmas about `dedupFirst` -/

theorem mem_dedupFirstAux (a : Nat) :
    ∀ (l seen : List Nat), a ∈ dedupFirstAux seen l ↔ a ∈ l ∧ a ∉ seen := by
  intro l
  induction l with
  | nil => intro seen; simp [dedupFirstAux]
  | cons b t ih =>
    intro seen
    by_cases hb : b ∈ seen
    · rw [dedupFirstAux, if_pos hb, ih]
      constructor
      · rintro ⟨hat, hns⟩; exact ⟨List.mem_cons_of_mem _ hat, hns⟩
      · rintro ⟨hat, hns⟩
        rcases List.mem_cons.mp hat with rfl | hat
        · exact absurd hb hns
        · exact ⟨hat, hns⟩
    · rw [dedupFirstAux, if_neg hb]
      constructor
      · intro hmem
        rcases List.mem_cons.mp hmem with rfl | hmem
        · exact ⟨List.mem_cons_self _ _, hb⟩
        · rcases (ih (b :: seen)).mp hmem with ⟨hat, hns⟩
          refine ⟨List.mem_cons_of_mem _ hat, fun hs => hns (List.mem_cons_of_mem _ hs)⟩
      · rintro ⟨hat, hns⟩
        rcases List.mem_cons.mp hat with rfl | hat
        · exact List.mem_cons_self _ _
        · by_cases hab : a = b
          · subst hab; exact List.mem_cons_self _ _
          · exact List.mem_cons_of_mem _ ((ih (b :: seen)).mpr
              ⟨hat, fun hs => by
                rcases List.mem_cons.mp hs with h | h
                · exact hab h
                · exact hns h⟩)

theorem mem_dedupFirst (a : Nat) (l : List Nat) :
    a ∈ dedupFirst l ↔ a ∈ l := by
  rw [dedupFirst, mem_dedupFirstAux]
  simp

theorem nodup_dedupFirstAux :
    ∀ (l seen : List Nat), (dedupFirstAux seen l).Nodup := by
  intro l
  induction l with
  | nil => intro seen; simp [dedupFirstAux]
  | cons b t ih =>
    intro seen
    by_cases hb : b ∈ seen
    · rw [dedupFirstAux, if_pos hb]; exact ih seen
    · rw [dedupFirstAux, if_neg hb]
      refine List.nodup_cons.mpr ⟨?_, ih (b :: seen)⟩
      intro hmem
      exact ((mem_dedupFirstAux b t (b :: seen)).mp hmem).2 (List.mem_cons_self _ _)

theorem nodup_dedupFirst (l : List Nat) : (dedupFirst l).Nodup :=
  nodup_dedupFirstAux l []

/-! ## Claim theorems -/

/-- C1: for every candidate set (with distinct indices, as generation
assigns them) the ranking parser, when it succeeds, returns a
permutation of exactly the input indices — same length, every candidate
exactly once — and the candidates never mentioned in the evaluator
response form the final segment of the order (appended, not dropped). -/
theorem parse_ranking_total_order (candidates mentions out : List Nat)
    (hnd : candidates.Nodup)
    (hout : parse_ranking candidates mentions = some out) :
    List.Perm out candidates ∧ out.length = candidates.length ∧
    candidates.filter (· ∉ mentions) <:+ out := by
  simp only [parse_ranking] at hout
  split at hout
  · exact absurd hout (by simp)
  · have hout2 := Option.some.inj hout
    subst hout2
    have hmemr : ∀ a, a ∈ dedupFirst (mentions.filter (· ∈ candidates)) ↔
        a ∈ mentions ∧ a ∈ candidates := by
      intro a
      rw [mem_dedupFirst, List.mem_filter]
      simp
    have hndr : (dedupFirst (mentions.filter (· ∈ candidates))).Nodup :=
      nodup_dedupFirst _
    have hnd2 : (candidates.filter
        (· ∉ dedupFirst (mentions.filter (· ∈ candidates)))).Nodup :=
      hnd.filter _
    have hdisj : (dedupFirst (mentions.filter (· ∈ candidates))).Disjoint
        (candidates.filter (· ∉ dedupFirst (mentions.filter (· ∈ candidates)))) := by
      intro a ha hb
      have hnot := (List.mem_filter.mp hb).2
      simp only [decide_not, Bool.not_eq_true', decide_eq_false_iff_not] at hnot
      exact hnot ha
    have hout_nd : (dedupFirst (mentions.filter (· ∈ candidates)) ++
        candidates.filter
          (· ∉ dedupFirst (mentions.filter (· ∈ candidates)))).Nodup :=
      List.nodup_append.mpr ⟨hndr, hnd2, hdisj⟩
    have hperm : List.Perm (dedupFirst (mentions.filter (· ∈ candidates)) ++
        candidates.filter
          (· ∉ dedupFirst (mentions.filter (· ∈ candidates)))) candidates := by
      rw [List.perm_ext_iff_of_nodup hout_nd hnd]
      intro a
      rw [List.mem_append, List.mem_filter]
      constructor
      · rintro (h | ⟨h, _⟩)
        · exact ((hmemr a).mp h).2
        · exact h
      · intro h
        by_cases hr : a ∈ dedupFirst (mentions.filter (· ∈ candidates))
        · exact Or.inl hr
        · exact Or.inr ⟨h, by simpa using hr⟩
    have hfeq : candidates.filter
        (· ∉ dedupFirst (mentions.filter (· ∈ candidates))) =
        candidates.filter (· ∉ mentions) := by
      apply List.filter_congr
      intro a ha
      rw [decide_eq_decide, not_iff_not, hmemr a]
      exact ⟨fun h => h.1, fun h => ⟨h, ha⟩⟩
    refine ⟨hperm, hperm.length_eq, ?_⟩
    rw [hfeq]
    exact List.suffix_append _ _

/-- C1 witness: candidate set 1,2,3 with evaluator mentions 3,1 parses
to the order 3,1,2: a permutation with the unmentioned candidate 2
appended. -/
theorem parse_ranking_total_order_witness :
    ([1, 2, 3] : List Nat).Nodup ∧
    (List.Perm ([3, 1, 2] : List Nat) [1, 2, 3] ∧
      ([3, 1, 2] : List Nat).length = ([1, 2, 3] : List Nat).length ∧
      ([1, 2, 3] : List Nat).filter (· ∉ ([3, 1] : List Nat)) <:+ [3, 1, 2]) :=
  ⟨by decide, parse_ranking_total_order [1, 2, 3] [3, 1] [3, 1, 2]
    (by decide) (by decide)⟩

/-- C7: goal truncation for identifiers is deterministic — equal goals
yield equal identifiers — and length-bounded: the result has at most
`max_length` characters and is a prefix of the goal. -/
theorem truncate_overall_goal_spec (g₁ g₂ : String) (m : Nat) (hg : g₁ = g₂) :
    truncate_overall_goal g₁ m = truncate_overall_goal g₂ m ∧
    (truncate_overall_goal g₁ m).length ≤ m ∧
    (truncate_overall_goal g₁ m).data <+: g₁.data := by
  subst hg
  refine ⟨rfl, ?_, g₁.data.drop m, List.take_append_drop m g₁.data⟩
  show (g₁.data.take m).length ≤ m
  simp [List.length_take]

/-- C7 witness: the goal string "hello world" truncated at 5 gives
"hello", within bounds and a prefix. -/
theorem truncate_overall_goal_spec_witness :
    ("hello world" : String) = "hello world" ∧
    (truncate_overall_goal "hello world" 5 =
      truncate_overall_goal "hello world" 5 ∧
     (truncate_overall_goal "hello world" 5).length ≤ 5 ∧
     (truncate_overall_goal "hello world" 5).data <+: ("hello world" : String).data) :=
  ⟨rfl, truncate_overall_goal_spec "hello world" "hello world" 5 rfl⟩

/-- C5: the count defaults to 1 when `-m` is absent, but the interactive
re-prompt fallback of `positive_int` performs no positivity check: on
the unparseable flag value "abc" followed by the typed line "-5" it
returns -5, below the required minimum of 1 — contradicting the
function's own `ArgumentTypeError` branch, which rejects non-positive
values on the direct path. -/
theorem positive_int_fallback_not_positive :
    num_scripts_to_generate none = 1 ∧
    positive_int "abc" ["-5"] = .ok (-5) ∧
    ¬ (1 ≤ (-5 : Int)) ∧
    positive_int "-5" [] = .argTypeError := by
  refine ⟨rfl, by decide, by decide, by decide⟩

/-! ## Success characterisation of a run -/

/-- Whether a fallible call succeeded. -/
def exceptOk {ε α : Type} (e : Except ε α) : Bool :=
  match e with
  | .ok _ => true
  | .error _ => false

/-- The generation step succeeds when it is skipped (a `-c`/`-h`/`-d`/`-u`
flag) or `generate_scripts` raises nothing. -/
def generation_success (env : Env) (args : Args) (t : String) : Bool :=
  decide (args.c ≠ [] ∨ args.h = true ∨ args.d = true ∨ args.u = true) ||
    exceptOk (env.generate_scripts t (num_scripts_to_generate args.m))

/-- The candidate paths the generation step hands to ranking: empty when
skipped, else the generated paths. -/
def generated_paths (env : Env) (args : Args) (t : String) : List String :=
  if args.c ≠ [] ∨ args.h = true ∨ args.d = true ∨ args.u = true then []
  else
    match env.generate_scripts t (num_scripts_to_generate args.m) with
    | .ok paths => paths
    | .error _ => []

/-- The ranking step succeeds when ranking was not requested, or the
candidate set (fresh, else discovered) is non-empty and both the
evaluation call and the report write raise nothing. -/
def ranking_success (env : Env) (args : Args) (t : String)
    (csv_file_paths : List String) : Bool :=
  !args.r ||
    match (if csv_file_paths = [] then env.get_existing_scripts t
           else .ok csv_file_paths) with
    | .error _ => false
    | .ok paths =>
      !decide (paths = []) &&
        match env.rank_crews paths args.overall_goal args.v with
        | .error _ => false
        | .ok (ranked_crews, _) =>
          exceptOk (env.save_ranking_output ranked_crews t)

/-- A fully successful run: the requested early command (`-h`/`-d`/`-u`)
succeeds, or the whole pipeline — config update, `AutoCrew` construction,
generation, ranking — raises nothing and ranking, when requested, had a
non-empty candidate set. -/
def main_success (menv : MainEnv) (args : Args) : Bool :=
  if args.h then true
  else if args.d then exceptOk menv.install_deps
  else if args.u then !menv.latest_newer || exceptOk menv.upgrade
  else
    (decide (args.c = []) || exceptOk menv.config_update) &&
    exceptOk menv.autocrew_init &&
    (let goal := effective_goal menv args
     let args' := { args with overall_goal := goal }
     let t := truncate_overall_goal goal menv.max_length
     generation_success menv.env args' t &&
       ranking_success menv.env args' t (generated_paths menv.env args' t))

theorem gen_step_cases (env : Env) (args : Args) (t : String) :
    (generation_success env args t = true ∧
      (generate_and_run_scripts env args t).1 =
        .ok (generated_paths env args t)) ∨
    (generation_success env args t = false ∧
      (generate_and_run_scripts env args t).1 = .exit 1) := by
  unfold generation_success generate_and_run_scripts generated_paths
  by_cases hflag : args.c ≠ [] ∨ args.h = true ∨ args.d = true ∨ args.u = true
  · simp [hflag]
  · simp only [hflag, if_false, decide_eq_true_eq, decide_eq_false_iff_not,
      Bool.false_or, if_neg hflag]
    cases henv : env.generate_scripts t (num_scripts_to_generate args.m) <;>
      simp [exceptOk]

theorem ranking_step_cases (env : Env) (args : Args) (t : String)
    (csv_file_paths : List String) :
    (ranking_success env args t csv_file_paths = true ∧
      (handle_ranking env args t csv_file_paths).1 = .ok ()) ∨
    (ranking_success env args t csv_file_paths = false ∧
      (handle_ranking env args t csv_file_paths).1 = .exit 1) := by
  unfold ranking_success handle_ranking
  by_cases hr : args.r = false
  · simp [hr]
  · have hr' : args.r = true := by
      cases h : args.r
      · exact absurd h hr
      · rfl
    simp only [hr', Bool.not_true, Bool.false_or, if_neg (by simp : ¬(true = false))]
    cases hget : (if csv_file_paths = [] then env.get_existing_scripts t
        else .ok csv_file_paths) with
    | error msg => simp
    | ok paths =>
      by_cases hpaths : paths = []
      · simp [hpaths]
      · simp only [hpaths, if_neg hpaths, decide_eq_true_eq]
        cases hrank : env.rank_crews paths args.overall_goal args.v with
        | error msg => simp
        | ok pair =>
          obtain ⟨ranked_crews, summary⟩ := pair
          cases hsave : env.save_ranking_output ranked_crews t <;>
            simp [exceptOk, hsave]

/-- C4: the process exit code of the modelled `main` flow is 0 exactly
when the run fully succeeds (`main_success`); every failure — a failed
early command, a config-update, construction, generation, ranking or
storage exception, or ranking requested on an empty candidate set —
exits 1, and no exit code other than 0 and 1 arises. -/
theorem main_exit_code (menv : MainEnv) (args : Args) :
    ((main_run menv args).1 = 0 ↔ main_success menv args = true) ∧
    ((main_run menv args).1 = 0 ∨ (main_run menv args).1 = 1) := by
  unfold main_run main_success
  by_cases hh : args.h = true
  · simp [hh]
  by_cases hd : args.d = true
  · simp only [if_neg hh, if_pos hd]
    cases hi : menv.install_deps <;> simp [exceptOk]
  by_cases hu : args.u = true
  · simp only [if_neg hh, if_neg hd, if_pos hu]
    by_cases hl : menv.latest_newer = true
    · simp only [if_pos hl, hl, Bool.not_true, Bool.false_or]
      cases hup : menv.upgrade <;> simp [exceptOk]
    · have hl2 : menv.latest_newer = false := by
        cases h : menv.latest_newer
        · rfl
        · exact absurd h hl
      simp [if_neg hl, hl2]
  simp only [if_neg hh, if_neg hd, if_neg hu]
  cases hcfg : (if args.c ≠ [] then menv.config_update
      else Except.ok ()) with
  | error e =>
    have hfail : (decide (args.c = []) ||
        exceptOk menv.config_update) = false := by
      by_cases hc : args.c = []
      · rw [if_neg (by simp [hc])] at hcfg
        cases hcfg
      · simp only [if_pos hc] at hcfg
        simp [hc, hcfg, exceptOk]
    simp [hfail]
  | ok u =>
    have hok : (decide (args.c = []) ||
        exceptOk menv.config_update) = true := by
      by_cases hc : args.c = []
      · simp [hc]
      · simp only [if_pos hc] at hcfg
        simp [hcfg, exceptOk]
    simp only [hok, Bool.true_and]
    cases hinit : menv.autocrew_init
    · simp [exceptOk]
    · simp only [exceptOk, Bool.true_and]
      rcases gen_step_cases menv.env
          { args with overall_goal := effective_goal menv args }
          (truncate_overall_goal (effective_goal menv args)
            menv.max_length) with ⟨hs, hres⟩ | ⟨hs, hres⟩ <;>
        rw [hres] <;> simp only [hs, Bool.true_and, Bool.false_and]
      · rcases ranking_step_cases menv.env
            { args with overall_goal := effective_goal menv args }
            (truncate_overall_goal (effective_goal menv args)
              menv.max_length)
            (generated_paths menv.env
              { args with overall_goal := effective_goal menv args }
              (truncate_overall_goal (effective_goal menv args)
                menv.max_length)) with ⟨hs2, hres2⟩ | ⟨hs2, hres2⟩ <;>
          rw [hres2] <;> simp [hs2]
      · simp

/-! ## Event characterisations -/

theorem mem_discEvents {e : Event} {t : String} {csvs : List String}
    (he : e ∈ (if csvs = [] then [Event.discover t] else ([] : List Event))) :
    csvs = [] ∧ e = Event.discover t := by
  split at he
  case isTrue hcsv => exact ⟨hcsv, by simpa using he⟩
  case isFalse hcsv => simp at he

theorem handle_ranking_events (env : Env) (args : Args) (t : String)
    (csvs : List String) :
    ∀ e ∈ (handle_ranking env args t csvs).2,
      (csvs = [] ∧ e = Event.discover t) ∨
      (∃ paths,
        (if csvs = [] then env.get_existing_scripts t else .ok csvs) =
          .ok paths ∧ paths ≠ [] ∧
        e = Event.rankCall paths args.overall_goal args.v) ∨
      (∃ paths ranked_crews s,
        (if csvs = [] then env.get_existing_scripts t else .ok csvs) =
          .ok paths ∧
        env.rank_crews paths args.overall_goal args.v =
          .ok (ranked_crews, s) ∧
        e = Event.saveReport ranked_crews t) := by
  intro e he
  simp only [handle_ranking] at he
  split at he
  · simp at he
  · split at he
    · rename_i msg heq
      rcases mem_discEvents (by simpa using he) with ⟨h1, h2⟩
      exact Or.inl ⟨h1, h2⟩
    · rename_i paths heq
      split at he
      · rcases mem_discEvents (by simpa using he) with ⟨h1, h2⟩
        exact Or.inl ⟨h1, h2⟩
      · rename_i hpaths
        split at he
        · rename_i msg2 heq2
          simp only [List.mem_append, List.mem_cons, List.not_mem_nil,
            or_false] at he
          rcases he with h | h
          · rcases mem_discEvents h with ⟨h1, h2⟩
            exact Or.inl ⟨h1, h2⟩
          · exact Or.inr (Or.inl ⟨paths, heq, hpaths, h⟩)
        · rename_i ranked_crews s heq2
          split at he <;>
          · simp only [List.mem_append, List.mem_cons, List.not_mem_nil,
              or_false] at he
            rcases he with h | h | h
            · rcases mem_discEvents h with ⟨h1, h2⟩
              exact Or.inl ⟨h1, h2⟩
            · exact Or.inr (Or.inl ⟨paths, heq, hpaths, h⟩)
            · exact Or.inr (Or.inr ⟨paths, ranked_crews, s, heq, heq2, h⟩)

/-- C3: when ranking is requested, no paths were freshly generated and
discovery finds nothing for the goal's identifier, the program logs an
error and exits with status 1 — never a silent no-op. -/
theorem ranking_empty_set_exits_one (env : Env) (args : Args) (t : String)
    (hr : args.r = true) (hdisc : env.get_existing_scripts t = .ok []) :
    handle_ranking env args t [] = (.exit 1, [.discover t]) := by
  unfold handle_ranking
  rw [if_neg (by simp [hr])]
  simp [hdisc]

/-- C9: the ranking step — whether it completes or aborts on a failure of
discovery, evaluation or report saving — issues only candidate-preserving
calls: discovery and evaluation read, and the report write touches the
sibling report artifact, never a persisted candidate. -/
theorem ranking_preserves_candidates (env : Env) (args : Args)
    (t : String) (csvs : List String) :
    ∀ e ∈ (handle_ranking env args t csvs).2,
      modifiesCandidates e = false := by
  intro e he
  rcases handle_ranking_events env args t csvs e he with
    ⟨_, rfl⟩ | ⟨p, _, _, rfl⟩ | ⟨p, cr, s, _, _, rfl⟩ <;> rfl

/-- C10: any of `-c`/`-h`/`-d`/`-u` makes the generation step skip all
generation calls and return no candidate paths, so a run that also
requests ranking operates on candidates discovered from storage. -/
theorem flags_suppress_generation (env : Env) (args : Args) (t : String)
    (hflags : args.c ≠ [] ∨ args.h = true ∨ args.d = true ∨ args.u = true) :
    generate_and_run_scripts env args t = (.ok [], []) ∧
    (∀ paths goal vb,
      Event.rankCall paths goal vb ∈ (handle_ranking env args t []).2 →
        env.get_existing_scripts t = .ok paths ∧ paths ≠ []) := by
  constructor
  · unfold generate_and_run_scripts
    simp [hflags]
  · intro paths goal vb hmem
    rcases handle_ranking_events env args t [] _ hmem with
      ⟨_, h⟩ | ⟨p, hp, hne, h⟩ | ⟨p, cr, s, hp, hrank, h⟩
    · cases h
    · cases h
      simpa using ⟨hp, hne⟩
    · cases h

theorem gen_events_goal (env : Env) (args : Args) (t : String)
    (goal : String) (n : Int)
    (hmem : Event.genCall goal n ∈ (generate_and_run_scripts env args t).2) :
    goal = t := by
  simp only [generate_and_run_scripts] at hmem
  split at hmem
  · simp at hmem
  · split at hmem <;>
    · have h2 : goal = t ∧ n = num_scripts_to_generate args.m := by
        simpa using hmem
      exact h2.1

theorem gen_no_rankCall (env : Env) (args : Args) (t : String)
    (paths : List String) (g : String) (vb : Bool) :
    Event.rankCall paths g vb ∉ (generate_and_run_scripts env args t).2 := by
  intro hmem
  simp only [generate_and_run_scripts] at hmem
  split at hmem
  · simp at hmem
  · split at hmem <;> simp at hmem

theorem ranking_no_genCall (env : Env) (args : Args) (t : String)
    (csvs : List String) (goal : String) (n : Int) :
    Event.genCall goal n ∉ (handle_ranking env args t csvs).2 := by
  intro hmem
  rcases handle_ranking_events env args t csvs _ hmem with
    ⟨_, h⟩ | ⟨p, _, _, h⟩ | ⟨p, cr, s, _, _, h⟩ <;> cases h

/-- The arguments object `main` passes on after the goal prompt. -/
def mainArgs (menv : MainEnv) (args : Args) : Args :=
  { args with overall_goal := effective_goal menv args }

/-- The truncated goal identifier `main` derives. -/
def mainTrunc (menv : MainEnv) (args : Args) : String :=
  truncate_overall_goal (effective_goal menv args) menv.max_length

/-- The generation step as invoked by `main`. -/
def genStep (menv : MainEnv) (args : Args) :
    StepResult (List String) × List Event :=
  generate_and_run_scripts menv.env (mainArgs menv args) (mainTrunc menv args)

/-- The ranking step as invoked by `main` when generation did not exit. -/
def rankStep (menv : MainEnv) (args : Args) : StepResult Unit × List Event :=
  handle_ranking menv.env (mainArgs menv args) (mainTrunc menv args)
    (generated_paths menv.env (mainArgs menv args) (mainTrunc menv args))

theorem main_run_events_cases (menv : MainEnv) (args : Args) :
    (main_run menv args).2 = [] ∨
    (main_run menv args).2 = (genStep menv args).2 ∨
    (main_run menv args).2 = (genStep menv args).2 ++ (rankStep menv args).2 := by
  unfold main_run genStep rankStep mainArgs mainTrunc
  by_cases hh : args.h = true
  · simp [hh]
  by_cases hd : args.d = true
  · simp only [if_neg hh, if_pos hd]
    cases menv.install_deps <;> simp
  by_cases hu : args.u = true
  · simp only [if_neg hh, if_neg hd, if_pos hu]
    by_cases hl : menv.latest_newer = true
    · simp only [if_pos hl]
      cases menv.upgrade <;> simp
    · simp [if_neg hl]
  simp only [if_neg hh, if_neg hd, if_neg hu]
  cases hcfg : (if args.c ≠ [] then menv.config_update
      else Except.ok ()) with
  | error e => simp
  | ok u =>
    cases hinit : menv.autocrew_init
    · simp
    · rcases gen_step_cases menv.env
          { args with overall_goal := effective_goal menv args }
          (truncate_overall_goal (effective_goal menv args)
            menv.max_length) with ⟨hs, hres⟩ | ⟨hs, hres⟩ <;> rw [hres]
      · cases hrk : (handle_ranking menv.env
            { args with overall_goal := effective_goal menv args }
            (truncate_overall_goal (effective_goal menv args)
              menv.max_length)
            (generated_paths menv.env
              { args with overall_goal := effective_goal menv args }
              (truncate_overall_goal (effective_goal menv args)
                menv.max_length))).1 <;> simp [hrk]
      · simp

/-- C2 amended: every generation call `main` issues carries the
truncated goal — the same text the file-system identifiers are derived
from — which coincides with the full goal exactly when the goal fits the
configured maximum length; the ranking call, by contrast, receives the
full untruncated goal. -/
theorem generation_receives_truncated_goal (menv : MainEnv) (args : Args) :
    (∀ goal n, Event.genCall goal n ∈ (main_run menv args).2 →
      goal = truncate_overall_goal (effective_goal menv args)
        menv.max_length ∧
      ((effective_goal menv args).length ≤ menv.max_length →
        goal = effective_goal menv args)) ∧
    (∀ paths g vb, Event.rankCall paths g vb ∈ (main_run menv args).2 →
      g = effective_goal menv args) := by
  have htrunc : (effective_goal menv args).length ≤ menv.max_length →
      truncate_overall_goal (effective_goal menv args) menv.max_length =
        effective_goal menv args := by
    intro hlen
    unfold truncate_overall_goal
    have hdata : (effective_goal menv args).data.take menv.max_length =
        (effective_goal menv args).data :=
      (List.take_eq_self_iff _).mpr hlen
    rw [hdata]
  constructor
  · intro goal n hmem
    have hgoal : goal = truncate_overall_goal (effective_goal menv args)
        menv.max_length := by
      rcases main_run_events_cases menv args with h | h | h <;>
        rw [h] at hmem
      · simp at hmem
      · exact gen_events_goal _ _ _ _ _ hmem
      · rcases List.mem_append.mp hmem with h1 | h1
        · exact gen_events_goal _ _ _ _ _ h1
        · exact absurd h1 (ranking_no_genCall _ _ _ _ _ _)
    exact ⟨hgoal, fun hlen => hgoal.trans (htrunc hlen)⟩
  · intro paths g vb hmem
    rcases main_run_events_cases menv args with h | h | h <;>
      rw [h] at hmem
    · simp at hmem
    · exact absurd hmem (gen_no_rankCall _ _ _ _ _ _)
    · rcases List.mem_append.mp hmem with h1 | h1
      · exact absurd h1 (gen_no_rankCall _ _ _ _ _ _)
      · rcases handle_ranking_events _ _ _ _ _ h1 with
          ⟨_, hh⟩ | ⟨p, _, _, hh⟩ | ⟨p, cr, s, _, _, hh⟩
        · cases hh
        · cases hh
          rfl
        · cases hh

/-- C6 amended: re-ranking previously generated candidates without a
new generation call happens exactly when a generation-suppressing option
is present (in the surviving `main` flow, `-c`): then no generation call
is issued and every ranking call operates on the candidate paths
discovered from storage. (A bare `-r` invocation instead issues fresh
generation calls and ranks the freshly generated set; see the
counterexample.) -/
theorem rerank_discovered_under_config_flag (menv : MainEnv) (args : Args)
    (hc : args.c ≠ []) :
    genCallGoals (main_run menv args).2 = [] ∧
    (∀ paths g vb, Event.rankCall paths g vb ∈ (main_run menv args).2 →
      menv.env.get_existing_scripts
        (truncate_overall_goal (effective_goal menv args) menv.max_length) =
          .ok paths ∧ paths ≠ []) := by
  have hskip : genStep menv args = (.ok [], []) := by
    unfold genStep generate_and_run_scripts
    rw [if_pos (Or.inl (by simpa [mainArgs] using hc))]
  have hgen : generated_paths menv.env (mainArgs menv args)
      (mainTrunc menv args) = [] := by
    unfold generated_paths
    rw [if_pos (Or.inl (by simpa [mainArgs] using hc))]
  constructor
  · unfold genCallGoals
    rw [List.filterMap_eq_nil_iff]
    intro e he
    rcases main_run_events_cases menv args with h | h | h <;> rw [h] at he
    · simp at he
    · rw [hskip] at he
      simp at he
    · rw [hskip] at he
      simp only [List.nil_append] at he
      rcases handle_ranking_events _ _ _ _ _ he with
        ⟨_, hh⟩ | ⟨p, _, _, hh⟩ | ⟨p, cr, s, _, _, hh⟩ <;> subst hh <;> rfl
  · intro paths g vb hmem
    rcases main_run_events_cases menv args with h | h | h <;>
      rw [h] at hmem
    · simp at hmem
    · rw [hskip] at hmem
      simp at hmem
    · rw [hskip] at hmem
      simp only [List.nil_append] at hmem
      unfold rankStep at hmem
      rw [hgen] at hmem
      rcases handle_ranking_events _ _ _ _ _ hmem with
        ⟨_, hh⟩ | ⟨p, hp, hne, hh⟩ | ⟨p, cr, s, _, _, hh⟩
      · cases hh
      · cases hh
        simp only [if_pos rfl] at hp
        exact ⟨by simpa [mainTrunc] using hp, hne⟩
      · cases hh

/-- C8 amended: the report-saving call receives exactly the ranked crews
returned by the evaluation call and the truncated goal identifier; the
evaluator summary text returned alongside them is only logged and is not
among the arguments of `save_ranking_output`. -/
theorem save_report_arguments (env : Env) (args : Args) (t : String)
    (csvs : List String) (crews : List String) (gid : String)
    (hmem : Event.saveReport crews gid ∈ (handle_ranking env args t csvs).2) :
    gid = t ∧
    ∃ paths s, env.rank_crews paths args.overall_goal args.v =
      .ok (crews, s) := by
  rcases handle_ranking_events env args t csvs _ hmem with
    ⟨_, hh⟩ | ⟨p, _, _, hh⟩ | ⟨p, cr, s, hp, hrank, hh⟩
  · cases hh
  · cases hh
  · cases hh
    exact ⟨rfl, p, s, hrank⟩

/-! ## Concrete instances -/

/-- A concrete environment: generation yields one fresh path, discovery
finds two candidates from a previous run, evaluation answers with one
crew and a distinctive summary, and all writes succeed. -/
def sampleEnv : Env where
  generate_scripts := fun _ _ => .ok ["fresh.csv"]
  get_existing_scripts := fun _ => .ok ["old1.csv", "old2.csv"]
  rank_crews := fun _ _ _ => .ok (["crewA"], "EVALUATOR SUMMARY")
  save_ranking_output := fun _ _ => .ok ()

/-- An environment in which generation fails and no previously generated
candidates are discoverable. -/
def bareEnv : Env where
  generate_scripts := fun _ _ => .error "GenerationFailed"
  get_existing_scripts := fun _ => .ok []
  rank_crews := fun _ _ _ => .error "BackendUnavailable"
  save_ranking_output := fun _ _ => .ok ()

/-- Benign `main` surroundings over `sampleEnv` with the default
40-character truncation limit. -/
def sampleMainEnv : MainEnv :=
  ⟨sampleEnv, .ok (), false, .ok (), .ok (), .ok (), "", 40⟩

/-- A 63-character goal, longer than the default truncation limit. -/
def longGoal : String :=
  "write a business plan for a coffee shop in downtown Springfield"

/-- `-r` with a goal and no other options. -/
def rankOnlyArgs : Args :=
  ⟨false, [], false, false, none, true, false, false, false, "g"⟩

/-- A long goal with no options: plain generation. -/
def longGoalArgs : Args :=
  ⟨false, [], false, false, none, false, false, false, false, longGoal⟩

/-- `-c` together with `-r` and a goal. -/
def configRankArgs : Args :=
  ⟨false, ["BASIC.llm_endpoint=openai"], false, false, none, true, false,
   false, false, "g"⟩

/-! ## Counterexamples and witnesses -/

/-- C2 counterexample: with the default 40-character limit and a
63-character goal, the run's single generation call is issued with
the 40-character truncated identifier text, which differs from the full
goal. -/
theorem generation_gets_truncated_goal_cex :
    genCallGoals (main_run sampleMainEnv longGoalArgs).2 =
      [truncate_overall_goal longGoal 40] ∧
    truncate_overall_goal longGoal 40 ≠ longGoal := by
  refine ⟨rfl, by decide⟩

/-- C2 amended witness: in the long-goal run the generation call's text
equals the truncated goal. -/
theorem generation_receives_truncated_goal_witness :
    truncate_overall_goal (effective_goal sampleMainEnv longGoalArgs)
        sampleMainEnv.max_length =
      truncate_overall_goal (effective_goal sampleMainEnv longGoalArgs)
        sampleMainEnv.max_length ∧
    ((effective_goal sampleMainEnv longGoalArgs).length ≤
        sampleMainEnv.max_length →
      truncate_overall_goal (effective_goal sampleMainEnv longGoalArgs)
          sampleMainEnv.max_length =
        effective_goal sampleMainEnv longGoalArgs) :=
  (generation_receives_truncated_goal sampleMainEnv longGoalArgs).1
    (truncate_overall_goal (effective_goal sampleMainEnv longGoalArgs)
      sampleMainEnv.max_length) 1 (by decide)

/-- C3 witness: a `-r` run with nothing generated and nothing
discoverable exits 1 after the discovery attempt. -/
theorem ranking_empty_set_exits_one_witness :
    rankOnlyArgs.r = true ∧
    bareEnv.get_existing_scripts "g" = .ok [] ∧
    handle_ranking bareEnv rankOnlyArgs "g" [] = (.exit 1, [.discover "g"]) :=
  ⟨rfl, rfl, ranking_empty_set_exits_one bareEnv rankOnlyArgs "g" rfl rfl⟩

/-- C6 counterexample: a bare `-r` run over a goal with two previously
generated, discoverable candidates still issues a generation call and
ranks the freshly generated candidate set instead of the discovered
one. -/
theorem bare_rerank_regenerates_cex :
    sampleEnv.get_existing_scripts "g" = .ok ["old1.csv", "old2.csv"] ∧
    (main_run sampleMainEnv rankOnlyArgs).2 =
      [.genCall "g" 1,
       .rankCall ["fresh.csv"] "g" false,
       .saveReport ["crewA"] "g"] :=
  ⟨rfl, rfl⟩

/-- C6 amended witness: under `-c` with `-r`, no generation call is
issued and the ranking call receives exactly the discovered paths. -/
theorem rerank_discovered_under_config_flag_witness :
    genCallGoals (main_run sampleMainEnv configRankArgs).2 = [] ∧
    (sampleMainEnv.env.get_existing_scripts
        (truncate_overall_goal (effective_goal sampleMainEnv configRankArgs)
          sampleMainEnv.max_length) = .ok ["old1.csv", "old2.csv"] ∧
      ["old1.csv", "old2.csv"] ≠ ([] : List String)) :=
  ⟨(rerank_discovered_under_config_flag sampleMainEnv configRankArgs
      (by decide)).1,
   (rerank_discovered_under_config_flag sampleMainEnv configRankArgs
      (by decide)).2 ["old1.csv", "old2.csv"] "g" false (by decide)⟩

/-- C8 counterexample: in a successful ranking run the evaluator returns
a summary text alongside the crews, but `save_ranking_output` is invoked
with only the ranked crews and the truncated goal — the summary string
appears in neither argument. -/
theorem ranking_summary_only_logged_cex :
    sampleEnv.rank_crews ["c1.csv"] "g" false =
      .ok (["crewA"], "EVALUATOR SUMMARY") ∧
    handle_ranking sampleEnv rankOnlyArgs "g" ["c1.csv"] =
      (.ok (), [.rankCall ["c1.csv"] "g" false,
                .saveReport ["crewA"] "g"]) ∧
    ¬ ("EVALUATOR SUMMARY".data <:+: "crewA".data) ∧
    ¬ ("EVALUATOR SUMMARY".data <:+: "g".data) :=
  ⟨rfl, rfl, by decide, by decide⟩

/-- C8 amended witness: the report-saving call of the sample run carries
the evaluator's crews and the goal identifier. -/
theorem save_report_arguments_witness :
    "g" = "g" ∧
    ∃ paths s, sampleEnv.rank_crews paths rankOnlyArgs.overall_goal
        rankOnlyArgs.v = .ok (["crewA"], s) :=
  save_report_arguments sampleEnv rankOnlyArgs "g" ["c1.csv"] ["crewA"] "g"
    (by decide)

/-- C9 witness: the evaluation call of a concrete ranking run is
classified as candidate-preserving. -/
theorem ranking_preserves_candidates_witness :
    Event.rankCall ["c1.csv"] "g" false ∈
      (handle_ranking sampleEnv rankOnlyArgs "g" ["c1.csv"]).2 ∧
    modifiesCandidates (Event.rankCall ["c1.csv"] "g" false) = false :=
  ⟨by decide,
   ranking_preserves_candidates sampleEnv rankOnlyArgs "g" ["c1.csv"]
     (Event.rankCall ["c1.csv"] "g" false) (by decide)⟩

/-- C10 witness: under `-c` the generation step is a no-op and the
subsequent `-r` ranking ranks the discovered non-empty candidate set. -/
theorem flags_suppress_generation_witness :
    generate_and_run_scripts sampleEnv configRankArgs "g" = (.ok [], []) ∧
    (sampleEnv.get_existing_scripts "g" = .ok ["old1.csv", "old2.csv"] ∧
      ["old1.csv", "old2.csv"] ≠ ([] : List String)) :=
  ⟨(flags_suppress_generation sampleEnv configRankArgs "g" (by decide)).1,
   (flags_suppress_generation sampleEnv configRankArgs "g" (by decide)).2
     ["old1.csv", "old2.csv"] "g" false (by decide)⟩

end Autocrew
